import Mathlib

/-!
Shallow embedding of the budget-tracker core (src/budget_app.py).

Money and percentages are modelled as exact rationals (ℚ); Python dicts
that preserve insertion order are modelled as association lists; a CSV
row as produced by csv.DictReader is modelled as a record of optional
string fields (`none` = the column/key is absent from the row, mirroring
`row.get(key, default)`); a Python KeyError (indexing a dict with a
missing key) is modelled by returning `none` from the operation.
-/

/-- Uppercase a string character by character (Python's `str.upper` on the
ASCII inputs this app deals with). -/
def strUpper (s : String) : String := ⟨s.data.map Char.toUpper⟩

/-- Does `needle` occur as a contiguous substring of `hay`?
(Python's `needle in hay` on strings.) -/
def listInfix (needle hay : List Char) : Bool :=
  match hay with
  | [] => needle.isEmpty
  | _ :: t => needle.isPrefixOf hay || listInfix needle t

def needleIn (needle hay : String) : Bool :=
  listInfix needle.toList hay.toList

/-- Python's `round(x, 2)` (banker's rounding to 2 decimal places),
modelled on exact rationals: round `q * 100` half-to-even, divide back. -/
def roundHalfEven (q : ℚ) : ℤ :=
  let f : ℤ := ⌊q⌋
  let r : ℚ := q - f
  if r < 1/2 then f
  else if 1/2 < r then f + 1
  else if f % 2 = 0 then f else f + 1

def round2 (q : ℚ) : ℚ := (roundHalfEven (q * 100) : ℚ) / 100

/-! ## Data model -/

/-- A category as stored in the config file: `{"percentage": p, "subcategories": []}`. -/
structure CatConfig where
  percentage : ℚ
  deriving Repr, DecidableEq

/-- The config's `categories` mapping: category name → definition
(association list; Python dicts preserve insertion order). -/
abbrev Config := List (String × CatConfig)

/-- One category's slice of a month's budget:
`{"percentage": ..., "allocated": ..., "spent": ..., "remaining": ...}`. -/
structure CatBudget where
  percentage : ℚ
  allocated : ℚ
  spent : ℚ
  remaining : ℚ
  deriving Repr, DecidableEq

/-- A month's budget: `{"total_income": ..., "categories": {...}}`. -/
structure Budget where
  total_income : ℚ
  categories : List (String × CatBudget)
  deriving Repr, DecidableEq

/-- A committed expense record:
`{"date": ..., "category": ..., "amount": ..., "description": ...}`. -/
structure Expense where
  date : String
  category : String
  amount : ℚ
  description : String
  deriving Repr, DecidableEq

/-- One month's entry in the data file: budget plan plus expense ledger. -/
structure MonthData where
  budget : Budget
  expenses : List Expense
  deriving Repr, DecidableEq

/-- The rule store: `{"keyword_rules": {...}, "learned_rules": {...}}`. -/
structure RuleSet where
  keyword_rules : List (String × String)
  learned_rules : List (String × String)
  deriving Repr, DecidableEq

/-- A candidate transaction emitted by the CSV row parser. -/
structure Txn where
  description : String
  amount : ℚ
  date : String
  deriving Repr, DecidableEq

/-! ## Categorizer (`auto_categorize`, budget_app.py lines 79-93) -/

/-- One pass of `auto_categorize`'s rule loop: return the category of the
first rule whose uppercased key is a substring of the (already
uppercased) description. -/
def findRule (description_upper : String) : List (String × String) → Option String
  | [] => none
  | (key, category) :: rest =>
    if needleIn (strUpper key) description_upper then some category
    else findRule description_upper rest

/-- Python `auto_categorize(description, rules)`: uppercase the description once;
learned rules first, then keyword rules; `none` when nothing matches. -/
def auto_categorize (description : String) (rules : RuleSet) : Option String :=
  let description_upper := strUpper description
  match findRule description_upper rules.learned_rules with
  | some category => some category
  | none => findRule description_upper rules.keyword_rules

/-! ## CSV row parsing (budget_app.py lines 227-254) -/

/-- A row as produced by `csv.DictReader`: each recognized column is
present (`some value`, possibly the empty string) or absent (`none`),
mirroring `row.get(key, default)`. -/
structure Row where
  description : Option String
  details : Option String
  amount : Option String
  postingDate : Option String
  date : Option String
  ty : Option String
  deriving Repr, DecidableEq

/-- Value of a list of decimal digits, most significant first
(empty list = 0, as in `float("42.")` and `float(".5")`). -/
def natOfDigits (l : List Char) : ℕ :=
  l.foldl (fun acc c => acc * 10 + (c.toNat - 48)) 0

/-- Parse an unsigned decimal literal (digits, optional `.`, digits):
the fragment of Python's `float()` this app's amount column exercises.
At least one digit must be present (`float(".")` and `float("")` raise). -/
def parseUnsigned (l : List Char) : Option ℚ :=
  let intPart := l.takeWhile Char.isDigit
  let rest := l.dropWhile Char.isDigit
  match rest with
  | [] => if intPart.isEmpty then none else some (natOfDigits intPart)
  | '.' :: frac =>
    if frac.all Char.isDigit && !(intPart.isEmpty && frac.isEmpty) then
      some ((natOfDigits intPart : ℚ) + (natOfDigits frac : ℚ) / (10 : ℚ) ^ frac.length)
    else none
  | _ => none

/-- Parse a signed decimal literal (`float()` on the app's inputs). -/
def parseSigned (l : List Char) : Option ℚ :=
  match l with
  | '-' :: rest => (parseUnsigned rest).map (fun q => -q)
  | '+' :: rest => parseUnsigned rest
  | _ => parseUnsigned l

/-- Python `amount_str.replace(',', '')` followed by `float(...)`. -/
def parseAmount (s : String) : Option ℚ :=
  parseSigned (s.toList.filter (fun c => c ≠ ','))

/-- Python `row.get('Description', row.get('Details', ''))`. -/
def resolvedDesc (row : Row) : String :=
  row.description.getD (row.details.getD "")

/-- The `Type` values whose rows are skipped. -/
def excludedTypes : List String := ["CREDIT", "DEPOSIT", "ACH_CREDIT", "DSLIP"]

/-- One iteration of the CSV import row loop: `none` = row skipped
(`continue`), `some t` = candidate transaction appended. -/
def parseRow (row : Row) : Option Txn :=
  let description := resolvedDesc row
  let amount_str := row.amount.getD "0"
  let date_str := row.postingDate.getD (row.date.getD "")
  let trans_type := strUpper (row.ty.getD "")
  if description = "" then none
  else
    match parseAmount amount_str with
    | none => none
    | some amount_raw =>
      if 0 ≤ amount_raw then none
      else if trans_type ∈ excludedTypes then none
      else some { description := description, amount := |amount_raw|, date := date_str }

/-- The whole row loop: candidates in source order. -/
def parseRows (rows : List Row) : List Txn := rows.filterMap parseRow

/-! ## Deduplicator (budget_app.py lines 261-276) -/

/-- Is the candidate a duplicate of some existing ledger expense?
Case-insensitive description equality and amount within 0.01. -/
def isDup (existing : List Expense) (t : Txn) : Bool :=
  existing.any (fun e =>
    strUpper e.description == strUpper t.description
      && decide (|e.amount - t.amount| < (1 : ℚ)/100))

/-- The dedup loop: partition candidates into (duplicates, new), both
preserving input order; each candidate checked against `existing` only. -/
def dedup (existing : List Expense) : List Txn → List Txn × List Txn
  | [] => ([], [])
  | t :: rest =>
    let r := dedup existing rest
    if isDup existing t then (t :: r.1, r.2) else (r.1, t :: r.2)

/-! ## Ledger engine -/

/-- Mutate `plan.budget.categories[name]`: `spent += amt; remaining -= amt`.
`none` models the Python KeyError raised when `name` is absent. -/
def updateSpent (amt : ℚ) (name : String) :
    List (String × CatBudget) → Option (List (String × CatBudget))
  | [] => none
  | (n, c) :: rest =>
    if n = name then
      some ((n, { c with spent := c.spent + amt, remaining := c.remaining - amt }) :: rest)
    else
      (updateSpent amt name rest).map (fun r => (n, c) :: r)

/-- The manual Add Expense commit (budget_app.py lines 357-367): append the
expense, update spent/remaining. `none` models the KeyError when the
chosen category is absent from the month's budget. -/
def addExpense (now : String) (m : MonthData) (category : String) (amount : ℚ)
    (description : String) : Option MonthData :=
  (updateSpent amount category m.budget.categories).map (fun cats =>
    { budget := { m.budget with categories := cats },
      expenses := m.expenses ++
        [{ date := now, category := category, amount := amount, description := description }] })

/-- Python `if category and category in st.session_state.config["categories"]`
(budget_app.py line 307): Python string truthiness plus config membership. -/
def commits (cfg : Config) (rules : RuleSet) (t : Txn) : Bool :=
  match auto_categorize t.description rules with
  | none => false
  | some category => category ≠ "" && (cfg.map Prod.fst).contains category

/-- One iteration of the import commit loop (budget_app.py lines 304-320)
acting on (month state, imported count). -/
def importStep (now : String) (cfg : Config) (rules : RuleSet)
    (st : MonthData × ℕ) (t : Txn) : Option (MonthData × ℕ) :=
  match auto_categorize t.description rules with
  | none => some st
  | some category =>
    if category ≠ "" && (cfg.map Prod.fst).contains category then
      (updateSpent t.amount category st.1.budget.categories).map (fun cats =>
        ({ budget := { st.1.budget with categories := cats },
           expenses := st.1.expenses ++
             [{ date := now, category := category, amount := t.amount,
                description := t.description }] }, st.2 + 1))
    else some st

/-- The import commit loop, iterated: `for i, trans in enumerate(new_transactions)`.
The state is (month data, imported count); `none` = an uncaught KeyError
aborted the loop. -/
def importLoop (now : String) (cfg : Config) (rules : RuleSet) :
    MonthData × ℕ → List Txn → Option (MonthData × ℕ)
  | st, [] => some st
  | st, t :: rest =>
    match importStep now cfg rules st t with
    | none => none
    | some st' => importLoop now cfg rules st' rest

/-- The import commit loop over the new (non-duplicate) transactions. -/
def importNew (now : String) (cfg : Config) (rules : RuleSet)
    (m : MonthData) (ts : List Txn) : Option (MonthData × ℕ) :=
  importLoop now cfg rules (m, 0) ts

/-- What the Import CSV page reports after a batch. -/
structure ImportResult where
  total : ℕ
  duplicates : ℕ
  newCount : ℕ
  imported : ℕ
  unresolved : ℕ
  month : MonthData
  deriving Repr, DecidableEq

/-- The whole import pipeline after parsing: dedup against the month's
ledger, then commit each new transaction that auto-categorizes to a
config category (budget_app.py lines 261-331). -/
def importBatch (now : String) (cfg : Config) (rules : RuleSet)
    (m : MonthData) (ts : List Txn) : Option ImportResult :=
  let d := dedup m.expenses ts
  (importNew now cfg rules m d.2).map (fun mi =>
    { total := ts.length, duplicates := d.1.length, newCount := d.2.length,
      imported := mi.2, unresolved := d.2.length - mi.2, month := mi.1 })

/-! ## New Month budget creation (budget_app.py lines 442-463) -/

/-- The budget built by the New Month page:
allocated = round(percentage/100 * income, 2), spent = 0,
remaining = round(percentage/100 * income, 2). -/
def createBudget (cfg : Config) (income : ℚ) : Budget :=
  { total_income := income,
    categories := cfg.map (fun nc =>
      (nc.1,
        { percentage := nc.2.percentage,
          allocated := round2 (nc.2.percentage / 100 * income),
          spent := 0,
          remaining := round2 (nc.2.percentage / 100 * income) })) }

/-- The fresh month record. -/
def createMonth (cfg : Config) (income : ℚ) : MonthData :=
  { budget := createBudget cfg income, expenses := [] }

/-! ## The budget invariant -/

/-- Per-category invariant: `remaining == allocated - spent`. -/
def catInvariant (c : CatBudget) : Prop := c.remaining = c.allocated - c.spent

instance (c : CatBudget) : Decidable (catInvariant c) := by
  unfold catInvariant; infer_instance

/-- The invariant for every category of a budget. -/
def budgetInvariant (b : Budget) : Prop :=
  ∀ p ∈ b.categories, catInvariant p.2

instance (b : Budget) : Decidable (budgetInvariant b) := by
  unfold budgetInvariant; infer_instance

/-! ## Concrete demonstration values (the spec's end-to-end scenario) -/

def demoRules : RuleSet :=
  { keyword_rules := [("WHOLE FOODS", "Necessities"), ("STARBUCKS", "Discretionary")],
    learned_rules := [] }

def demoCfg : Config := [("Necessities", ⟨60⟩), ("Discretionary", ⟨40⟩)]

def demoTxn : Txn :=
  { description := "WHOLE FOODS MKT 123", amount := 453/10, date := "01/05/2026" }

def demoMonth : MonthData := createMonth demoCfg 1000

/-- The month state after importing `demoTxn` into the fresh `demoMonth`. -/
def demoMonth1 : MonthData :=
  { budget :=
      { total_income := 1000,
        categories :=
          [("Necessities",
            { percentage := 60, allocated := 600, spent := 453/10, remaining := 5547/10 }),
           ("Discretionary",
            { percentage := 40, allocated := 400, spent := 0, remaining := 400 })] },
    expenses :=
      [{ date := "now1", category := "Necessities", amount := 453/10,
         description := "WHOLE FOODS MKT 123" }] }

/-- The report of that first import. -/
def demoResult : ImportResult :=
  { total := 1, duplicates := 0, newCount := 1, imported := 1, unresolved := 0,
    month := demoMonth1 }

/-- A rule set where a learned rule and a keyword rule both match the same
description but map to different categories. -/
def demoRulesBoth : RuleSet :=
  { keyword_rules := [("WHOLE FOODS", "Necessities")],
    learned_rules := [("WHOLE FOODS MKT 123", "Groceries")] }

/-- A month whose plan has no categories at all. -/
def emptyCatMonth : MonthData :=
  { budget := { total_income := 1000, categories := [] }, expenses := [] }

/-- A CSV row with a positive (credit) amount. -/
def rowPositive : Row :=
  { description := some "PAYROLL CREDIT", details := none, amount := some "1,234.56",
    postingDate := none, date := none, ty := none }

/-- A CSV row for a debit of 42.10. -/
def rowDebit : Row :=
  { description := some "STORE PURCHASE", details := none, amount := some "-42.10",
    postingDate := none, date := none, ty := some "DEBIT" }

/-- A row whose Description key is present but holds the empty string,
while Details is non-empty. -/
def rowEmptyDesc : Row :=
  { description := some "", details := some "GROCERY STORE", amount := some "-5.00",
    postingDate := none, date := none, ty := none }

/-- A row with no Description column at all, only Details. -/
def rowNoDesc : Row :=
  { description := none, details := some "GROCERY STORE", amount := some "-5.00",
    postingDate := none, date := none, ty := none }

/-- A transaction whose description matches no rule. -/
def unresTxn : Txn :=
  { description := "MYSTERY SHOP", amount := 5, date := "01/06/2026" }

/-! ## Helper lemmas -/

theorem isDup_iff_exists (existing : List Expense) (t : Txn) :
    isDup existing t = true ↔
      ∃ e ∈ existing, strUpper e.description = strUpper t.description ∧
        |e.amount - t.amount| < (1 : ℚ)/100 := by
  unfold isDup
  rw [List.any_eq_true]
  constructor
  · rintro ⟨e, he, hb⟩
    rw [Bool.and_eq_true, beq_iff_eq, decide_eq_true_eq] at hb
    exact ⟨e, he, hb⟩
  · rintro ⟨e, he, h1, h2⟩
    exact ⟨e, he, by rw [Bool.and_eq_true, beq_iff_eq, decide_eq_true_eq]; exact ⟨h1, h2⟩⟩

theorem isDup_append (l1 l2 : List Expense) (t : Txn) :
    isDup (l1 ++ l2) t = (isDup l1 t || isDup l2 t) := by
  unfold isDup
  exact List.any_append

theorem isDup_of_match (l : List Expense) (t : Txn) (e : Expense)
    (he : e ∈ l) (hd : e.description = t.description) (ha : e.amount = t.amount) :
    isDup l t = true := by
  rw [isDup_iff_exists]
  refine ⟨e, he, by rw [hd], ?_⟩
  rw [ha, sub_self, abs_zero]
  norm_num

theorem dedup_fst (existing : List Expense) (ts : List Txn) :
    (dedup existing ts).1 = ts.filter (fun t => isDup existing t) := by
  induction ts with
  | nil => rfl
  | cons t rest ih =>
    simp only [dedup, List.filter_cons]
    by_cases h : isDup existing t
    · simp [h, ih]
    · simp [h, ih]

theorem dedup_snd (existing : List Expense) (ts : List Txn) :
    (dedup existing ts).2 = ts.filter (fun t => !isDup existing t) := by
  induction ts with
  | nil => rfl
  | cons t rest ih =>
    simp only [dedup, List.filter_cons]
    by_cases h : isDup existing t
    · simp [h, ih]
    · simp [h, ih]

theorem updateSpent_eq_none_iff (amt : ℚ) (name : String) (cats : List (String × CatBudget)) :
    updateSpent amt name cats = none ↔ name ∉ cats.map Prod.fst := by
  induction cats with
  | nil => simp [updateSpent]
  | cons p rest ih =>
    simp only [updateSpent, List.map_cons, List.mem_cons]
    by_cases h : p.1 = name
    · simp [h]
    · rw [if_neg h, Option.map_eq_none', ih]
      constructor
      · intro hn
        rintro (hh | hm)
        · exact h hh.symm
        · exact hn hm
      · intro hn hm
        exact hn (Or.inr hm)

theorem updateSpent_invariant (amt : ℚ) (name : String)
    (cats cats' : List (String × CatBudget))
    (h : updateSpent amt name cats = some cats')
    (hinv : ∀ p ∈ cats, catInvariant p.2) :
    ∀ p ∈ cats', catInvariant p.2 := by
  induction cats generalizing cats' with
  | nil => simp [updateSpent] at h
  | cons q rest ih =>
    simp only [updateSpent] at h
    by_cases hq : q.1 = name
    · rw [if_pos hq, Option.some_inj] at h
      subst h
      intro p hp
      rcases List.mem_cons.mp hp with hh | hm
      · subst hh
        have := hinv q (List.mem_cons_self _ _)
        unfold catInvariant at this ⊢
        simp only
        rw [this]
        ring
      · exact hinv p (List.mem_cons_of_mem _ hm)
    · rw [if_neg hq, Option.map_eq_some'] at h
      obtain ⟨r, hr, hcats⟩ := h
      subst hcats
      intro p hp
      rcases List.mem_cons.mp hp with hh | hm
      · subst hh
        exact hinv q (List.mem_cons_self _ _)
      · exact ih r hr (fun p hp => hinv p (List.mem_cons_of_mem _ hp)) p hm

theorem importStep_of_not_commits (now : String) (cfg : Config) (rules : RuleSet)
    (st : MonthData × ℕ) (t : Txn) (h : commits cfg rules t = false) :
    importStep now cfg rules st t = some st := by
  unfold commits at h
  unfold importStep
  rcases hac : auto_categorize t.description rules with _ | c
  · rfl
  · rw [hac] at h
    simp only at h ⊢
    rw [h]
    simp

theorem importStep_commits_shape (now : String) (cfg : Config) (rules : RuleSet)
    (st st' : MonthData × ℕ) (t : Txn) (h : commits cfg rules t = true)
    (hs : importStep now cfg rules st t = some st') :
    ∃ c cats, auto_categorize t.description rules = some c ∧
      updateSpent t.amount c st.1.budget.categories = some cats ∧
      st' = ({ budget := { st.1.budget with categories := cats },
               expenses := st.1.expenses ++
                 [{ date := now, category := c, amount := t.amount,
                    description := t.description }] }, st.2 + 1) := by
  unfold commits at h
  unfold importStep at hs
  rcases hac : auto_categorize t.description rules with _ | c
  · rw [hac] at h
    exact absurd h (by simp)
  · rw [hac] at h hs
    simp only at h hs
    rw [h] at hs
    simp only [if_true] at hs
    rw [Option.map_eq_some'] at hs
    obtain ⟨cats, hcats, hst⟩ := hs
    exact ⟨c, cats, rfl, hcats, hst.symm⟩

theorem importStep_expenses_mono (now : String) (cfg : Config) (rules : RuleSet)
    (st st' : MonthData × ℕ) (t : Txn)
    (hs : importStep now cfg rules st t = some st') :
    ∃ l, st'.1.expenses = st.1.expenses ++ l ∧ ∀ e ∈ l, e.date = now := by
  rcases hc : commits cfg rules t with _ | _
  · rw [importStep_of_not_commits now cfg rules st t hc, Option.some_inj] at hs
    subst hs
    exact ⟨[], by simp⟩
  · obtain ⟨c, cats, _, _, hst⟩ := importStep_commits_shape now cfg rules st st' t hc hs
    subst hst
    refine ⟨[{ date := now, category := c, amount := t.amount,
               description := t.description }], rfl, ?_⟩
    intro e he
    rw [List.mem_singleton] at he
    subst he
    rfl

theorem importLoop_expenses_mono (now : String) (cfg : Config) (rules : RuleSet)
    (ts : List Txn) (st st' : MonthData × ℕ)
    (h : importLoop now cfg rules st ts = some st') :
    ∃ l, st'.1.expenses = st.1.expenses ++ l ∧ ∀ e ∈ l, e.date = now := by
  induction ts generalizing st with
  | nil =>
    unfold importLoop at h
    rw [Option.some_inj] at h
    subst h
    exact ⟨[], by simp⟩
  | cons t rest ih =>
    unfold importLoop at h
    rcases hs : importStep now cfg rules st t with _ | st1
    · rw [hs] at h; exact absurd h (by simp)
    · rw [hs] at h
      simp only at h
      obtain ⟨l1, hl1, hd1⟩ := importStep_expenses_mono now cfg rules st st1 t hs
      obtain ⟨l2, hl2, hd2⟩ := ih st1 h
      refine ⟨l1 ++ l2, ?_, ?_⟩
      · rw [hl2, hl1, List.append_assoc]
      · intro e he
        rcases List.mem_append.mp he with h1 | h2
        · exact hd1 e h1
        · exact hd2 e h2

theorem importLoop_all_skip (now : String) (cfg : Config) (rules : RuleSet)
    (ts : List Txn) (st : MonthData × ℕ) :
    (∀ t ∈ ts, commits cfg rules t = false) →
    importLoop now cfg rules st ts = some st := by
  induction ts generalizing st with
  | nil => intro _; rfl
  | cons t rest ih =>
    intro h
    unfold importLoop
    rw [importStep_of_not_commits now cfg rules st t (h t (List.mem_cons_self _ _))]
    exact ih st (fun u hu => h u (List.mem_cons_of_mem _ hu))

theorem importLoop_commits_mem (now : String) (cfg : Config) (rules : RuleSet)
    (ts : List Txn) (t : Txn) (hc : commits cfg rules t = true)
    (st st' : MonthData × ℕ) :
    importLoop now cfg rules st ts = some st' → t ∈ ts →
    ∃ e ∈ st'.1.expenses, e.description = t.description ∧ e.amount = t.amount := by
  induction ts generalizing st with
  | nil =>
    intro _ ht
    exact absurd ht (List.not_mem_nil t)
  | cons u rest ih =>
    intro h ht
    unfold importLoop at h
    rcases hs : importStep now cfg rules st u with _ | st1
    · rw [hs] at h; exact absurd h (by simp)
    · rw [hs] at h
      simp only at h
      rcases List.mem_cons.mp ht with hh | hm
      · subst hh
        obtain ⟨c, cats, _, _, hst⟩ := importStep_commits_shape now cfg rules st st1 t hc hs
        obtain ⟨l, hl, _⟩ := importLoop_expenses_mono now cfg rules rest st1 st' h
        refine ⟨{ date := now, category := c, amount := t.amount,
                  description := t.description }, ?_, rfl, rfl⟩
        rw [hl]
        subst hst
        simp
      · exact ih st1 h hm

theorem importStep_invariant (now : String) (cfg : Config) (rules : RuleSet)
    (st st' : MonthData × ℕ) (t : Txn)
    (hs : importStep now cfg rules st t = some st')
    (hinv : budgetInvariant st.1.budget) : budgetInvariant st'.1.budget := by
  rcases hc : commits cfg rules t with _ | _
  · rw [importStep_of_not_commits now cfg rules st t hc, Option.some_inj] at hs
    subst hs
    exact hinv
  · obtain ⟨c, cats, _, hcats, hst⟩ := importStep_commits_shape now cfg rules st st' t hc hs
    subst hst
    intro p hp
    exact updateSpent_invariant t.amount c _ cats hcats hinv p hp

theorem importLoop_invariant (now : String) (cfg : Config) (rules : RuleSet)
    (ts : List Txn) (st st' : MonthData × ℕ) :
    importLoop now cfg rules st ts = some st' →
    budgetInvariant st.1.budget → budgetInvariant st'.1.budget := by
  induction ts generalizing st with
  | nil =>
    intro h hinv
    rw [importLoop, Option.some_inj] at h
    subst h
    exact hinv
  | cons t rest ih =>
    intro h hinv
    unfold importLoop at h
    rcases hs : importStep now cfg rules st t with _ | st1
    · rw [hs] at h; exact absurd h (by simp)
    · rw [hs] at h
      simp only at h
      exact ih st1 h (importStep_invariant now cfg rules st st1 t hs hinv)

theorem createBudget_invariant (cfg : Config) (income : ℚ) :
    budgetInvariant (createBudget cfg income) := by
  intro p hp
  unfold createBudget at hp
  simp only [List.mem_map] at hp
  obtain ⟨nc, _, hnc⟩ := hp
  subst hnc
  unfold catInvariant
  simp

/-! ## Claim theorems -/

/-- C1: for every category of a month's budget plan, the invariant
`remaining == allocated - spent` holds immediately after plan creation,
and is preserved by every commit, both on the manual Add Expense path
and on the CSV import path (hence it holds before and after every
`CommitExpense`, for every category, always). -/
theorem C1_remaining_invariant :
    (∀ (cfg : Config) (income : ℚ), budgetInvariant (createBudget cfg income)) ∧
    (∀ (now : String) (m : MonthData) (category : String) (amount : ℚ)
       (description : String) (m' : MonthData),
       budgetInvariant m.budget →
       addExpense now m category amount description = some m' →
       budgetInvariant m'.budget) ∧
    (∀ (now : String) (cfg : Config) (rules : RuleSet) (m : MonthData)
       (ts : List Txn) (r : ImportResult),
       budgetInvariant m.budget →
       importBatch now cfg rules m ts = some r →
       budgetInvariant r.month.budget) := by
  refine ⟨createBudget_invariant, ?_, ?_⟩
  · intro now m category amount description m' hinv h
    unfold addExpense at h
    rw [Option.map_eq_some'] at h
    obtain ⟨cats, hcats, hm'⟩ := h
    subst hm'
    intro p hp
    exact updateSpent_invariant amount category _ cats hcats hinv p hp
  · intro now cfg rules m ts r hinv h
    unfold importBatch at h
    rw [Option.map_eq_some'] at h
    obtain ⟨mi, hmi, hr⟩ := h
    subst hr
    exact importLoop_invariant now cfg rules _ (m, 0) mi hmi hinv

/-- The demo month satisfies the invariant at creation. -/
theorem demo_budgetInvariant : budgetInvariant demoMonth.budget := by
  simp only [budgetInvariant, demoMonth, createMonth, createBudget, demoCfg, catInvariant,
    round2, roundHalfEven, List.map_cons, List.map_nil, List.mem_cons, List.not_mem_nil]
  norm_num

/-- Importing the demo transaction into the demo month produces `demoResult`. -/
theorem demo_import_eq :
    importBatch "now1" demoCfg demoRules demoMonth [demoTxn] = some demoResult := by
  have h1 : needleIn (strUpper "WHOLE FOODS") (strUpper "WHOLE FOODS MKT 123") = true := by
    decide
  have h2 : ¬("Necessities" = "") := by decide
  simp only [importBatch, importNew, importLoop, importStep, commits, auto_categorize,
    findRule, h1, if_true, updateSpent, dedup, isDup,
    demoCfg, demoRules, demoMonth, demoTxn, demoMonth1, demoResult, createMonth,
    createBudget, round2, roundHalfEven, List.any_nil, List.map_cons, List.map_nil]
  norm_num [h2]

/-- Witness for C1 at the concrete end-to-end scenario. -/
theorem C1_witness :
    (budgetInvariant demoMonth.budget ∧
      importBatch "now1" demoCfg demoRules demoMonth [demoTxn] = some demoResult) ∧
    budgetInvariant demoResult.month.budget :=
  ⟨⟨demo_budgetInvariant, demo_import_eq⟩,
    C1_remaining_invariant.2.2 "now1" demoCfg demoRules demoMonth [demoTxn] demoResult
      demo_budgetInvariant demo_import_eq⟩

/-- C2: immediately after New Month creation from a non-empty category set
and positive income, the plan has exactly the config's categories, and
every category has allocated = round(percentage/100 * income, 2),
spent = 0, and remaining = allocated. -/
theorem C2_create_plan (cfg : Config) (income : ℚ)
    (hne : cfg ≠ []) (hI : 0 < income)
    (name : String) (c : CatConfig) (hmem : (name, c) ∈ cfg) :
    (createBudget cfg income).categories.map Prod.fst = cfg.map Prod.fst ∧
    ∃ b : CatBudget, (name, b) ∈ (createBudget cfg income).categories ∧
      b.allocated = round2 (c.percentage / 100 * income) ∧
      b.spent = 0 ∧ b.remaining = b.allocated := by
  constructor
  · unfold createBudget
    simp [List.map_map, Function.comp]
  · refine ⟨{ percentage := c.percentage,
              allocated := round2 (c.percentage / 100 * income),
              spent := 0,
              remaining := round2 (c.percentage / 100 * income) }, ?_, rfl, rfl, rfl⟩
    unfold createBudget
    simp only [List.mem_map]
    exact ⟨(name, c), hmem, rfl⟩

/-- Witness for C2 at the end-to-end scenario (60/40 split of 1000). -/
theorem C2_witness :
    (demoCfg ≠ [] ∧ (0 : ℚ) < 1000 ∧ ("Necessities", (⟨60⟩ : CatConfig)) ∈ demoCfg) ∧
    ((createBudget demoCfg 1000).categories.map Prod.fst = demoCfg.map Prod.fst ∧
     ∃ b : CatBudget, ("Necessities", b) ∈ (createBudget demoCfg 1000).categories ∧
       b.allocated = round2 ((60 : ℚ) / 100 * 1000) ∧
       b.spent = 0 ∧ b.remaining = b.allocated) :=
  ⟨⟨by decide, by norm_num, by decide⟩,
    C2_create_plan demoCfg 1000 (by decide) (by norm_num) "Necessities" ⟨60⟩ (by decide)⟩

/-- C4: a candidate is classified as a duplicate iff some existing ledger
expense has a case-insensitively equal description and an amount within
0.01; each candidate is classified against the existing ledger only, so
the duplicates and new lists are order-preserving filters of the input,
and two identical new transactions in one batch are both kept as new. -/
theorem C4_dedup_contract (existing : List Expense) (ts : List Txn) (t : Txn) :
    (isDup existing t = true ↔
      ∃ e ∈ existing, strUpper e.description = strUpper t.description ∧
        |e.amount - t.amount| < (1 : ℚ)/100) ∧
    (dedup existing ts).1 = ts.filter (fun u => isDup existing u) ∧
    (dedup existing ts).2 = ts.filter (fun u => !isDup existing u) ∧
    (isDup existing t = false → dedup existing [t, t] = ([], [t, t])) := by
  refine ⟨isDup_iff_exists existing t, dedup_fst existing ts, dedup_snd existing ts, ?_⟩
  intro h
  simp [dedup, h]

/-- Witness for C4: a fresh duplicate-free batch of two identical
transactions against a singleton ledger. -/
theorem C4_witness :
    (isDup demoMonth1.expenses demoTxn = true ↔
      ∃ e ∈ demoMonth1.expenses, strUpper e.description = strUpper demoTxn.description ∧
        |e.amount - demoTxn.amount| < (1 : ℚ)/100) ∧
    (dedup demoMonth1.expenses [demoTxn]).1 =
      [demoTxn].filter (fun u => isDup demoMonth1.expenses u) ∧
    (dedup demoMonth1.expenses [demoTxn]).2 =
      [demoTxn].filter (fun u => !isDup demoMonth1.expenses u) ∧
    (isDup demoMonth1.expenses demoTxn = false →
      dedup demoMonth1.expenses [demoTxn, demoTxn] = ([], [demoTxn, demoTxn])) :=
  C4_dedup_contract demoMonth1.expenses [demoTxn] demoTxn

/-- C3: after a successful import of a batch, importing the identical
batch again classifies every transaction committed by the first run as a
duplicate, the second run commits nothing (imported = 0) and leaves the
month unchanged. -/
theorem C3_reimport_all_duplicates (now now2 : String) (cfg : Config) (rules : RuleSet)
    (m : MonthData) (ts : List Txn) (r1 : ImportResult)
    (h1 : importBatch now cfg rules m ts = some r1) :
    importBatch now2 cfg rules r1.month ts =
      some { total := ts.length,
             duplicates := (dedup r1.month.expenses ts).1.length,
             newCount := (dedup r1.month.expenses ts).2.length,
             imported := 0,
             unresolved := (dedup r1.month.expenses ts).2.length,
             month := r1.month } ∧
    ∀ t ∈ ts, isDup m.expenses t = false → commits cfg rules t = true →
      t ∈ (dedup r1.month.expenses ts).1 := by
  unfold importBatch at h1
  rw [Option.map_eq_some'] at h1
  obtain ⟨mi, hmi, hr1⟩ := h1
  unfold importNew at hmi
  have hmonth : r1.month = mi.1 := by rw [← hr1]
  have hcommitted : ∀ t ∈ (dedup m.expenses ts).2, commits cfg rules t = true →
      isDup r1.month.expenses t = true := by
    intro t ht hc
    obtain ⟨e, he, hd, ha⟩ :=
      importLoop_commits_mem now cfg rules (dedup m.expenses ts).2 t hc (m, 0) mi hmi ht
    rw [hmonth]
    exact isDup_of_match mi.1.expenses t e he hd ha
  have hdup2 : ∀ t ∈ ts, isDup m.expenses t = false → commits cfg rules t = true →
      t ∈ (dedup r1.month.expenses ts).1 := by
    intro t ht hnd hc
    have htnews : t ∈ (dedup m.expenses ts).2 := by
      rw [dedup_snd]
      exact List.mem_filter.mpr ⟨ht, by rw [hnd]; rfl⟩
    have hdup := hcommitted t htnews hc
    rw [dedup_fst]
    exact List.mem_filter.mpr ⟨ht, by rw [hdup]⟩
  refine ⟨?_, hdup2⟩
  have hskip : ∀ t ∈ (dedup r1.month.expenses ts).2, commits cfg rules t = false := by
    intro t ht
    rw [dedup_snd] at ht
    obtain ⟨hts, hnd⟩ := List.mem_filter.mp ht
    have hnd' : isDup r1.month.expenses t = false := by
      cases hb : isDup r1.month.expenses t
      · rfl
      · rw [hb] at hnd; exact absurd hnd (by simp)
    obtain ⟨l, hl, _⟩ := importLoop_expenses_mono now cfg rules (dedup m.expenses ts).2 (m, 0) mi hmi
    have hndm : isDup m.expenses t = false := by
      cases hb : isDup m.expenses t
      · rfl
      · exfalso
        have habs : isDup r1.month.expenses t = true := by
          rw [hmonth, hl, isDup_append, hb]
          simp
        rw [habs] at hnd'
        cases hnd'
    cases hcb : commits cfg rules t
    · rfl
    · exfalso
      have hmem := hdup2 t hts hndm hcb
      rw [dedup_fst] at hmem
      have hfil := (List.mem_filter.mp hmem).2
      rw [hnd'] at hfil
      exact absurd hfil (by simp)
  have hloop : importLoop now2 cfg rules (r1.month, 0) (dedup r1.month.expenses ts).2 =
      some (r1.month, 0) :=
    importLoop_all_skip now2 cfg rules (dedup r1.month.expenses ts).2 (r1.month, 0) hskip
  simp only [importBatch, importNew]
  rw [hloop]
  simp

/-- Witness for C3: re-importing the demo batch after a successful first
run commits nothing and flags the committed transaction as duplicate. -/
theorem C3_witness :
    (importBatch "now1" demoCfg demoRules demoMonth [demoTxn] = some demoResult) ∧
    (importBatch "now2" demoCfg demoRules demoResult.month [demoTxn] =
       some { total := [demoTxn].length,
              duplicates := (dedup demoResult.month.expenses [demoTxn]).1.length,
              newCount := (dedup demoResult.month.expenses [demoTxn]).2.length,
              imported := 0,
              unresolved := (dedup demoResult.month.expenses [demoTxn]).2.length,
              month := demoResult.month } ∧
     ∀ t ∈ [demoTxn], isDup demoMonth.expenses t = false →
       commits demoCfg demoRules t = true →
       t ∈ (dedup demoResult.month.expenses [demoTxn]).1) :=
  ⟨demo_import_eq,
    C3_reimport_all_duplicates "now1" "now2" demoCfg demoRules demoMonth [demoTxn]
      demoResult demo_import_eq⟩

/-- C5 counterexample: the claimed check against the plan's own categories
does not happen on the import path. Here the transaction's category
"Necessities" is present in the month plan and the amount is positive,
yet with the plan's category removed from the global config the import
commits nothing and counts the transaction as unresolved, leaving the
month unchanged. -/
theorem C5_counterexample :
    auto_categorize demoTxn.description demoRules = some "Necessities" ∧
    "Necessities" ∈ demoMonth.budget.categories.map Prod.fst ∧
    0 < demoTxn.amount ∧
    importBatch "d" [] demoRules demoMonth [demoTxn] =
      some { total := 1, duplicates := 0, newCount := 1, imported := 0,
             unresolved := 1, month := demoMonth } := by
  have h1 : needleIn (strUpper "WHOLE FOODS") (strUpper "WHOLE FOODS MKT 123") = true := by
    decide
  refine ⟨by decide, by decide, by norm_num [demoTxn], ?_⟩
  simp only [importBatch, importNew, importLoop, importStep, auto_categorize, findRule,
    h1, if_true, dedup, isDup, List.any_nil, demoRules, demoTxn]
  simp [demoMonth, createMonth, createBudget, demoCfg, round2, roundHalfEven]

/-- C5 (amended): committing to a category absent from the plan's own
categories does fail, but as a modelled KeyError, and the check that
gates the import commit is membership of the auto-assigned category in
the global config's categories (plus Python truthiness of the name),
not in the plan's own categories; a transaction failing that config
check is skipped with the month state unchanged, while one passing it
whose category is missing from the plan aborts with the KeyError. -/
theorem C5_category_checks (now : String) (cfg : Config) (rules : RuleSet) (m : MonthData)
    (t : Txn) (category description : String) (amount : ℚ) :
    (addExpense now m category amount description = none ↔
      category ∉ m.budget.categories.map Prod.fst) ∧
    (∀ c, auto_categorize t.description rules = some c →
      (commits cfg rules t = true ↔ (c ≠ "" ∧ c ∈ cfg.map Prod.fst))) ∧
    (commits cfg rules t = false → importStep now cfg rules (m, 0) t = some (m, 0)) ∧
    (∀ c, auto_categorize t.description rules = some c → commits cfg rules t = true →
      c ∉ m.budget.categories.map Prod.fst →
      importStep now cfg rules (m, 0) t = none) := by
  refine ⟨?_, ?_, ?_, ?_⟩
  · unfold addExpense
    rw [Option.map_eq_none']
    exact updateSpent_eq_none_iff amount category m.budget.categories
  · intro c hc
    unfold commits
    rw [hc]
    simp
  · exact importStep_of_not_commits now cfg rules (m, 0) t
  · intro c hc hcom hnot
    unfold commits at hcom
    rw [hc] at hcom
    simp only at hcom
    unfold importStep
    rw [hc]
    simp only
    rw [(updateSpent_eq_none_iff t.amount c m.budget.categories).mpr hnot]
    rw [if_pos hcom]
    rfl

/-- Witness for C5's amended statement: a commit against a category absent
from the plan fails; a transaction whose category left the config is
skipped; one whose category is in the config but not the plan aborts. -/
theorem C5_witness :
    ((addExpense "d" demoMonth "Ghost" 5 "x" = none ↔
        "Ghost" ∉ demoMonth.budget.categories.map Prod.fst) ∧
      commits [] demoRules demoTxn = false ∧
      importStep "d" [] demoRules (demoMonth, 0) demoTxn = some (demoMonth, 0)) ∧
    (auto_categorize demoTxn.description demoRules = some "Necessities" ∧
      commits [("Necessities", (⟨60⟩ : CatConfig))] demoRules demoTxn = true ∧
      importStep "d" [("Necessities", ⟨60⟩)] demoRules (emptyCatMonth, 0) demoTxn = none) := by
  refine ⟨⟨?_, by decide, ?_⟩, by decide, by decide, ?_⟩
  · exact (C5_category_checks "d" [] demoRules demoMonth demoTxn "Ghost" "x" 5).1
  · exact (C5_category_checks "d" [] demoRules demoMonth demoTxn "Ghost" "x" 5).2.2.1
      (by decide)
  · exact (C5_category_checks "d" [("Necessities", ⟨60⟩)] demoRules emptyCatMonth demoTxn
      "Ghost" "x" 5).2.2.2 "Necessities" (by decide) (by decide) (by decide)

/-- C6: a parsed row (with a non-empty resolved description and parseable
amount) is excluded when its signed amount is non-negative or its Type,
uppercased, is in the exclusion set; otherwise it is emitted as a
candidate whose amount is the absolute value of the signed amount. -/
theorem C6_row_filtering (row : Row) (q : ℚ)
    (hd : resolvedDesc row ≠ "")
    (hq : parseAmount (row.amount.getD "0") = some q) :
    (0 ≤ q → parseRow row = none) ∧
    (strUpper (row.ty.getD "") ∈ excludedTypes → parseRow row = none) ∧
    (q < 0 → strUpper (row.ty.getD "") ∉ excludedTypes →
      parseRow row = some { description := resolvedDesc row, amount := -q,
                            date := row.postingDate.getD (row.date.getD "") }) := by
  refine ⟨?_, ?_, ?_⟩
  · intro h
    simp only [parseRow, hq]
    rw [if_neg hd, if_pos h]
  · intro h
    simp only [parseRow, hq]
    rw [if_neg hd]
    by_cases h0 : (0 : ℚ) ≤ q
    · rw [if_pos h0]
    · rw [if_neg h0, if_pos h]
  · intro hneg hty
    simp only [parseRow, hq]
    rw [if_neg hd, if_neg (not_le.mpr hneg), if_neg hty, abs_of_neg hneg]

/-- The amount column value "1,234.56" parses (after stripping the
thousands separator) to the positive rational 1234.56. -/
theorem parseAmount_thousands : parseAmount "1,234.56" = some (30864/25 : ℚ) := by
  have h0 : parseAmount "1,234.56" =
      some ((natOfDigits ['1','2','3','4'] : ℚ) +
        (natOfDigits ['5','6'] : ℚ) / (10 : ℚ) ^ (['5','6'].length)) := rfl
  have h1 : natOfDigits ['1','2','3','4'] = 1234 := by decide
  have h2 : natOfDigits ['5','6'] = 56 := by decide
  rw [h0, h1, h2]
  norm_num

/-- The amount column value "-42.10" parses to the rational -42.1. -/
theorem parseAmount_debit : parseAmount "-42.10" = some (-(421/10) : ℚ) := by
  have h0 : parseAmount "-42.10" =
      some (-((natOfDigits ['4','2'] : ℚ) +
        (natOfDigits ['1','0'] : ℚ) / (10 : ℚ) ^ (['1','0'].length))) := rfl
  have h1 : natOfDigits ['4','2'] = 42 := by decide
  have h2 : natOfDigits ['1','0'] = 10 := by decide
  rw [h0, h1, h2]
  norm_num

/-- Witness for C6: the row with Amount "1,234.56" is excluded; the row
with Amount "-42.10" and Type "DEBIT" becomes a candidate of amount 42.10. -/
theorem C6_witness :
    ((0 : ℚ) ≤ 30864/25 ∧ parseRow rowPositive = none) ∧
    ((-(421/10) : ℚ) < 0 ∧
      strUpper (rowDebit.ty.getD "") ∉ excludedTypes ∧
      parseRow rowDebit =
        some { description := "STORE PURCHASE", amount := 421/10, date := "" }) := by
  refine ⟨⟨by norm_num, ?_⟩, by norm_num, by decide, ?_⟩
  · exact (C6_row_filtering rowPositive (30864/25) (by decide) parseAmount_thousands).1
      (by norm_num)
  · have h := (C6_row_filtering rowDebit (-(421/10)) (by decide) parseAmount_debit).2.2
      (by norm_num) (by decide)
    rw [h]
    norm_num
    exact ⟨rfl, rfl⟩

theorem findRule_none_of_no_match (du : String) (rs : List (String × String))
    (h : ∀ p ∈ rs, needleIn (strUpper p.1) du = false) :
    findRule du rs = none := by
  induction rs with
  | nil => rfl
  | cons p rest ih =>
    unfold findRule
    rw [h p (List.mem_cons_self _ _)]
    simp only [Bool.false_eq_true, if_false]
    exact ih (fun q hq => h q (List.mem_cons_of_mem _ hq))

theorem findRule_first_match (du : String) (rs : List (String × String)) (c : String) :
    findRule du rs = some c →
    ∃ i : Fin rs.length, (rs.get i).2 = c ∧
      needleIn (strUpper (rs.get i).1) du = true ∧
      ∀ j : Fin rs.length, (j : ℕ) < (i : ℕ) →
        needleIn (strUpper (rs.get j).1) du = false := by
  induction rs with
  | nil => intro h; exact absurd h (by simp [findRule])
  | cons p rest ih =>
    intro h
    unfold findRule at h
    cases hm : needleIn (strUpper p.1) du with
    | true =>
      rw [hm] at h
      simp only [if_true] at h
      rw [Option.some_inj] at h
      refine ⟨⟨0, by simp⟩, h, hm, ?_⟩
      intro j hj
      simp at hj
    | false =>
      rw [hm] at h
      simp only [Bool.false_eq_true, if_false] at h
      obtain ⟨i, hi1, hi2, hi3⟩ := ih h
      refine ⟨⟨i.1 + 1, by simpa using i.2⟩, ?_, ?_, ?_⟩
      · simpa using hi1
      · simpa using hi2
      · intro j hj
        rcases j with ⟨jv, hjv⟩
        cases jv with
        | zero => simpa using hm
        | succ k =>
          have hk : k < rest.length := by simpa using hjv
          have := hi3 ⟨k, hk⟩ (by simpa using hj)
          simpa using this

/-- C7: the Categorizer uppercases the description once; it returns the
category of the first learned rule whose uppercased key is a substring
of the uppercased description (so learned rules take precedence over
keyword rules), otherwise the category of the first matching keyword
rule, otherwise no category. -/
theorem C7_categorizer (description : String) (rules : RuleSet) :
    (∀ c, findRule (strUpper description) rules.learned_rules = some c →
      auto_categorize description rules = some c) ∧
    (findRule (strUpper description) rules.learned_rules = none →
      auto_categorize description rules =
        findRule (strUpper description) rules.keyword_rules) ∧
    (∀ (rs : List (String × String)) (c : String),
      findRule (strUpper description) rs = some c →
      ∃ i : Fin rs.length, (rs.get i).2 = c ∧
        needleIn (strUpper (rs.get i).1) (strUpper description) = true ∧
        ∀ j : Fin rs.length, (j : ℕ) < (i : ℕ) →
          needleIn (strUpper (rs.get j).1) (strUpper description) = false) ∧
    ((∀ p ∈ rules.learned_rules,
        needleIn (strUpper p.1) (strUpper description) = false) →
      (∀ p ∈ rules.keyword_rules,
        needleIn (strUpper p.1) (strUpper description) = false) →
      auto_categorize description rules = none) := by
  refine ⟨?_, ?_, ?_, ?_⟩
  · intro c h
    simp only [auto_categorize]
    rw [h]
  · intro h
    simp only [auto_categorize]
    rw [h]
  · intro rs c h
    exact findRule_first_match (strUpper description) rs c h
  · intro h1 h2
    simp only [auto_categorize]
    rw [findRule_none_of_no_match (strUpper description) rules.learned_rules h1,
        findRule_none_of_no_match (strUpper description) rules.keyword_rules h2]

/-- Witness for C7: a description matching both a learned rule (mapping to
"Groceries") and a keyword rule (mapping to "Necessities") resolves to
the learned category. -/
theorem C7_witness :
    (findRule (strUpper "WHOLE FOODS MKT 123") demoRulesBoth.learned_rules =
        some "Groceries" ∧
      findRule (strUpper "WHOLE FOODS MKT 123") demoRulesBoth.keyword_rules =
        some "Necessities") ∧
    auto_categorize "WHOLE FOODS MKT 123" demoRulesBoth = some "Groceries" :=
  ⟨⟨by decide, by decide⟩,
    (C7_categorizer "WHOLE FOODS MKT 123" demoRulesBoth).1 "Groceries" (by decide)⟩

/-- C8 counterexample: a row whose Description value is present but empty
and whose Details value is non-empty is skipped by the parser, not
parsed using the Details value as the claim states. -/
theorem C8_counterexample :
    rowEmptyDesc.description = some "" ∧
    rowEmptyDesc.details = some "GROCERY STORE" ∧
    ("GROCERY STORE" : String) ≠ "" ∧
    parseRow rowEmptyDesc = none := by
  refine ⟨rfl, rfl, by decide, ?_⟩
  rfl

/-- C8 (amended): the parser uses the Description value whenever the
Description key is present, even when that value is empty; it falls
back to Details only when the Description key is absent from the row;
the row is skipped whenever the resolved description is empty, so a row
with a present-but-empty Description is skipped regardless of Details. -/
theorem C8_description_resolution (row : Row) :
    (∀ s, row.description = some s → resolvedDesc row = s) ∧
    (row.description = none → resolvedDesc row = row.details.getD "") ∧
    (resolvedDesc row = "" → parseRow row = none) ∧
    (row.description = some "" → parseRow row = none) := by
  refine ⟨?_, ?_, ?_, ?_⟩
  · intro s hs
    unfold resolvedDesc
    rw [hs]
    rfl
  · intro hs
    unfold resolvedDesc
    rw [hs]
    rfl
  · intro hs
    simp only [parseRow]
    rw [if_pos hs]
  · intro hs
    have hre : resolvedDesc row = "" := by
      unfold resolvedDesc
      rw [hs]
      rfl
    simp only [parseRow]
    rw [if_pos hre]

/-- Witness for C8's amended statement: present-but-empty Description
skips the row; absent Description falls back to Details. -/
theorem C8_witness :
    (rowEmptyDesc.description = some "" ∧ parseRow rowEmptyDesc = none) ∧
    (rowNoDesc.description = none ∧ resolvedDesc rowNoDesc = "GROCERY STORE") :=
  ⟨⟨rfl, (C8_description_resolution rowEmptyDesc).2.2.2 rfl⟩,
    ⟨rfl, (C8_description_resolution rowNoDesc).2.1 rfl⟩⟩

theorem importLoop_cons (now : String) (cfg : Config) (rules : RuleSet)
    (st : MonthData × ℕ) (t : Txn) (ts : List Txn) :
    importLoop now cfg rules st (t :: ts) =
      match importStep now cfg rules st t with
      | none => none
      | some st1 => importLoop now cfg rules st1 ts := rfl

/-- C9: a transaction whose description matches no rule is skipped by
the import commit loop with the state unchanged (no expense appended, no
category touched), removing it from a batch does not change the result
of the other commits, and a single-candidate batch of it returns
normally with the transaction counted as unresolved and the month
unchanged. -/
theorem C9_unresolved_frame (now : String) (cfg : Config) (rules : RuleSet)
    (st : MonthData × ℕ) (m : MonthData) (pre post : List Txn) (t : Txn)
    (h : auto_categorize t.description rules = none) :
    importStep now cfg rules st t = some st ∧
    importLoop now cfg rules st (pre ++ t :: post) =
      importLoop now cfg rules st (pre ++ post) ∧
    (isDup m.expenses t = false →
      importBatch now cfg rules m [t] =
        some { total := 1, duplicates := 0, newCount := 1, imported := 0,
               unresolved := 1, month := m }) := by
  have hcf : commits cfg rules t = false := by
    unfold commits
    rw [h]
  have hstep : ∀ s : MonthData × ℕ, importStep now cfg rules s t = some s :=
    fun s => importStep_of_not_commits now cfg rules s t hcf
  refine ⟨hstep st, ?_, ?_⟩
  · induction pre generalizing st with
    | nil =>
      rw [List.nil_append, List.nil_append, importLoop_cons, hstep st]
    | cons p rest ih =>
      rw [List.cons_append, List.cons_append, importLoop_cons, importLoop_cons]
      cases hs : importStep now cfg rules st p with
      | none => rfl
      | some st1 => exact ih st1
  · intro hd
    have hloop : importLoop now cfg rules (m, 0) [t] = some (m, 0) := by
      rw [importLoop_cons, hstep (m, 0)]
      rfl
    simp only [importBatch, importNew, dedup, hd, Bool.false_eq_true, if_false, hloop]
    rfl

/-- Witness for C9: a transaction matching no rule imports as unresolved
and leaves the demo month untouched. -/
theorem C9_witness :
    (auto_categorize unresTxn.description demoRules = none ∧
      isDup demoMonth.expenses unresTxn = false) ∧
    importBatch "d" demoCfg demoRules demoMonth [unresTxn] =
      some { total := 1, duplicates := 0, newCount := 1, imported := 0,
             unresolved := 1, month := demoMonth } :=
  ⟨⟨by decide, by decide⟩,
    (C9_unresolved_frame "d" demoCfg demoRules (demoMonth, 0) demoMonth [] [] unresTxn
      (by decide)).2.2 (by decide)⟩

theorem isDup_set_date (existing : List Expense) (t : Txn) (d : String) :
    isDup existing { t with date := d } = isDup existing t := rfl

theorem importStep_set_date (now : String) (cfg : Config) (rules : RuleSet)
    (st : MonthData × ℕ) (t : Txn) (d : String) :
    importStep now cfg rules st { t with date := d } =
      importStep now cfg rules st t := rfl

theorem dedup_map_date (existing : List Expense) (g : Txn → String) (ts : List Txn) :
    dedup existing (ts.map (fun t => { t with date := g t })) =
      ((dedup existing ts).1.map (fun t => { t with date := g t }),
       (dedup existing ts).2.map (fun t => { t with date := g t })) := by
  induction ts with
  | nil => rfl
  | cons t rest ih =>
    simp only [List.map_cons, dedup, ih, isDup_set_date]
    cases h : isDup existing t
    · simp [h]
    · simp [h]

theorem importLoop_map_date (now : String) (cfg : Config) (rules : RuleSet)
    (g : Txn → String) (ts : List Txn) (st : MonthData × ℕ) :
    importLoop now cfg rules st (ts.map (fun t => { t with date := g t })) =
      importLoop now cfg rules st ts := by
  induction ts generalizing st with
  | nil => rfl
  | cons t rest ih =>
    rw [List.map_cons, importLoop_cons, importLoop_cons, importStep_set_date]
    cases hs : importStep now cfg rules st t with
    | none => rfl
    | some st1 => exact ih st1

/-- C10: every expense added to the ledger by a CSV import carries the
commit-time timestamp `now` in its stored date field, and the date the
parser copied into the candidate is discarded: rewriting every
candidate's date arbitrarily yields the identical import result. -/
theorem C10_import_date (now : String) (cfg : Config) (rules : RuleSet)
    (m : MonthData) (ts : List Txn) (r : ImportResult) (g : Txn → String)
    (h : importBatch now cfg rules m ts = some r) :
    (∀ e ∈ r.month.expenses, e ∈ m.expenses ∨ e.date = now) ∧
    importBatch now cfg rules m (ts.map (fun t => { t with date := g t })) = some r := by
  constructor
  · unfold importBatch at h
    rw [Option.map_eq_some'] at h
    obtain ⟨mi, hmi, hr⟩ := h
    unfold importNew at hmi
    have hm : r.month = mi.1 := by rw [← hr]
    obtain ⟨l, hl, hdates⟩ :=
      importLoop_expenses_mono now cfg rules (dedup m.expenses ts).2 (m, 0) mi hmi
    intro e he
    rw [hm, hl] at he
    rcases List.mem_append.mp he with h1 | h2
    · exact Or.inl h1
    · exact Or.inr (hdates e h2)
  · simp only [importBatch, importNew, dedup_map_date, importLoop_map_date,
      List.length_map]
    unfold importBatch importNew at h
    exact h

/-- Witness for C10: the committed demo expense is stamped with the import
time, and rewriting the candidate's CSV date changes nothing. -/
theorem C10_witness :
    (importBatch "now1" demoCfg demoRules demoMonth [demoTxn] = some demoResult) ∧
    (∀ e ∈ demoResult.month.expenses, e ∈ demoMonth.expenses ∨ e.date = "now1") ∧
    importBatch "now1" demoCfg demoRules demoMonth
      ([demoTxn].map (fun t => { t with date := "OTHER" })) = some demoResult :=
  ⟨demo_import_eq,
    (C10_import_date "now1" demoCfg demoRules demoMonth [demoTxn] demoResult
      (fun _ => "OTHER") demo_import_eq).1,
    (C10_import_date "now1" demoCfg demoRules demoMonth [demoTxn] demoResult
      (fun _ => "OTHER") demo_import_eq).2⟩
